import Mathlib

/-!
# terminal-doom: the miniaudio sound bridge

A shallow embedding of `src/miniaudio/doom_miniaudio_sound_bridge.c`.

* Memory reached through a `char *` / `void *` is a list of bytes (`List Nat`);
  reading a C string from it fails (`none`) when no NUL byte is found.
* The file-level statics of the bridge are the fields of `State`.
* The miniaudio library is external: every call the bridge makes is appended to
  the log `State.calls` (with the value the library answered), and the answers
  of the library during one bridge operation are the fields of `Answers`.
-/

set_option linter.unusedVariables false

namespace MiniAudioBridge

/-! ## C strings -/

/-- The bytes of a string literal (without the terminating NUL). -/
def bytes (s : String) : List Nat := s.toList.map Char.toNat

/-- C `strlen`: the number of bytes before the first NUL; `none` when the
memory holds no NUL (the read runs off the object). -/
def strlen : List Nat → Option Nat
  | [] => none
  | b :: p => if b = 0 then some 0 else (strlen p).map (· + 1)

/-- The C string stored at `p` (what `%s` reads): the bytes before the first NUL. -/
def cstr (p : List Nat) : Option (List Nat) :=
  (strlen p).map (fun n => p.take n)

/-- C `snprintf(buf, size, ...)` into a local buffer, seen through the C string
it leaves in `buf`: at most `size - 1` bytes of the formatted text, followed by
a NUL. -/
def snprintf (size : Nat) (formatted : List Nat) : List Nat :=
  formatted.take (size - 1)

/-- Overwrite the beginning of `buf` with `w`. -/
def store (buf w : List Nat) : List Nat :=
  w ++ buf.drop w.length

/-! ## The library boundary -/

/-- The `ma_result` of success. -/
def MA_SUCCESS : Int := 0

/-- One call made by the bridge to miniaudio or to the diagnostic stream,
together with the value that was answered. -/
inductive Call where
  | ma_engine_config_init
  | ma_engine_init (result : Int)
  | ma_engine_uninit
  | ma_engine_play_sound (path : List Nat)
  | ma_sound_is_playing (answer : Bool)
  | ma_volume_linear_to_db (gain : ℚ) (db : ℚ)
  | ma_sound_set_volume (volume : ℚ)
  | ma_sound_stop
  | ma_sound_uninit
  | ma_sound_init_from_file (path : List Nat) (result : Int)
  | ma_sound_set_looping (looping : Bool)
  | ma_sound_start (result : Int)
  | fprintf_init_failed (result : Int)
  | fprintf_could_not_play (name : List Nat) (result : Int)
  deriving DecidableEq, Repr

/-- What the library answers during one operation of the bridge (each library
function is called at most once per operation). -/
structure Answers where
  ma_engine_init : Int
  ma_sound_is_playing : Bool
  ma_sound_init_from_file : Int
  ma_sound_start : Int
  ma_volume_linear_to_db : ℚ → ℚ

/-- The statics of the bridge and the log of calls made so far (oldest first). -/
structure State where
  sound_initialized : Bool
  use_sfx_prefix : Bool
  gma_music_playing : Bool
  calls : List Call
  deriving DecidableEq, Repr

/-- The state at program start: `sound_initialized = false`,
`gma_music_playing = false`, nothing called yet. -/
def State.initial : State :=
  { sound_initialized := false, use_sfx_prefix := false,
    gma_music_playing := false, calls := [] }

/-- Append one call to the log. -/
def State.call (s : State) (c : Call) : State :=
  { s with calls := s.calls ++ [c] }

/-! ## Music module -/

/-- The function `I_MINI_AUDIO_StopSong` (source lines 190-200). -/
def I_MINI_AUDIO_StopSong (s : State) (a : Answers) : State :=
  if s.gma_music_playing then
    let s := s.call (.ma_sound_is_playing a.ma_sound_is_playing)
    let s := if a.ma_sound_is_playing then s.call .ma_sound_stop else s
    let s := s.call .ma_sound_uninit
    { s with gma_music_playing := false }
  else s

/-- The function `I_MINI_AUDIO_PlaySong` (source lines 202-223); `none` when
`handle` is not a C string. -/
def I_MINI_AUDIO_PlaySong (s : State) (a : Answers) (handle : List Nat)
    (looping : Bool) : Option State :=
  let s := I_MINI_AUDIO_StopSong s a
  match cstr handle with
  | none => none
  | some h =>
    let name := snprintf 64 (bytes "sound/" ++ h ++ bytes ".mp3")
    let result := a.ma_sound_init_from_file
    let s := s.call (.ma_sound_init_from_file name result)
    if result ≠ MA_SUCCESS then some s
    else
      let s := s.call (.ma_sound_set_looping looping)
      let result := a.ma_sound_start
      let s := s.call (.ma_sound_start result)
      if result ≠ MA_SUCCESS then
        some (s.call (.fprintf_could_not_play name result))
      else some { s with gma_music_playing := true }

/-- The function `I_MINI_AUDIO_MusicIsPlaying` (source lines 225-227). -/
def I_MINI_AUDIO_MusicIsPlaying (s : State) : Bool :=
  s.gma_music_playing

/-- The function `I_MINI_AUDIO_SetMusicVolume` (source lines 164-171); the
`float` arithmetic is done over exact rationals. -/
def I_MINI_AUDIO_SetMusicVolume (s : State) (a : Answers) (volume : Int) : State :=
  if s.gma_music_playing then
    let s := s.call (.ma_sound_is_playing a.ma_sound_is_playing)
    if a.ma_sound_is_playing then
      let gain : ℚ := 1 - (volume : ℚ) / 127
      let converted := a.ma_volume_linear_to_db gain
      let s := s.call (.ma_volume_linear_to_db gain converted)
      s.call (.ma_sound_set_volume converted)
    else s
  else s

/-- Modelled from the spec: `malloc` of the C library; the fresh block of `n`
bytes holds indeterminate values `junk 0, junk 1, ...`; allocation failure is
not modelled ("a freshly allocated null-terminated string"). -/
def malloc (junk : Nat → Nat) (n : Nat) : List Nat :=
  (List.range n).map junk

/-- The copy loop of `ma_strcpy_s`,
`for (i = 0; i < dstSizeInBytes && src[i] != '\0'; ++i) dst[i] = src[i];`
followed by `dst[i] = '\0'` when it stopped with `i < dstSizeInBytes`. The
first argument is the room left, `dstSizeInBytes - i`; `src` and `dst` are
the memory from index `i` on. The flag tells whether the NUL was written. -/
def ma_strcpy_s.loop : Nat → List Nat → List Nat → Option (Bool × List Nat)
  | 0, _, dst => some (false, dst)
  | _ + 1, [], _ => none
  | _ + 1, _ :: _, [] => none
  | room + 1, b :: src, _ :: dst =>
    if b = 0 then some (true, 0 :: dst)
    else (ma_strcpy_s.loop room src dst).map (fun r => (r.1, b :: r.2))

/-- Modelled from the spec: `ma_strcpy_s` of miniaudio.h (not under src/), the
bounded string copy used by registration ("copies it into a freshly allocated
null-terminated string"). Returns 0 when the copy and its NUL fit in
`dstSizeInBytes`, otherwise empties `dst` and returns 34 (`ERANGE`). -/
def ma_strcpy_s (dst : List Nat) (dstSizeInBytes : Nat) (src : List Nat) :
    Option (Int × List Nat) :=
  if dstSizeInBytes = 0 then some (34, dst)
  else
    match ma_strcpy_s.loop dstSizeInBytes src dst with
    | none => none
    | some (true, dst) => some (0, dst)
    | some (false, dst) => some (34, 0 :: dst.drop 1)

/-- The function `I_MINI_AUDIO_RegisterSong` (source lines 177-183): the
returned handle is the memory of the copy; `none` when `data` is not a C
string. -/
def I_MINI_AUDIO_RegisterSong (junk : Nat → Nat) (data : List Nat) (len : Int) :
    Option (List Nat) :=
  let name := data
  match strlen name with
  | none => none
  | some str_len =>
    let copy := malloc junk (str_len + 1)
    match ma_strcpy_s copy (str_len + 1) name with
    | none => none
    | some (_res, copy) => some copy

/-! ## Sound module -/

/-- Modelled from the spec: the typedef `boolean` of doomtype.h is not under
src/ ("the init function's return type only represents true/false"). The value
of a `return e;` in a function returning `boolean`: with the C `bool` typedef
every non-zero `e` becomes 1, with the enum typedef `e` is returned as is. -/
def as_boolean (boolean_is_bool : Bool) (e : Int) : Int :=
  if boolean_is_bool then (if e ≠ 0 then 1 else 0) else e

/-- How a caller's `if (r)` / `if (!r)` sees a returned value: true iff non-zero. -/
def truthy (r : Int) : Bool := decide (r ≠ 0)

/-- The function `I_MINI_AUDIO_InitSound` (source lines 40-57): the returned
value and the new state. -/
def I_MINI_AUDIO_InitSound (boolean_is_bool : Bool) (s : State) (a : Answers)
    ( _use_sfx_prefix : Bool) : Int × State :=
  let s := { s with use_sfx_prefix := _use_sfx_prefix }
  let s := s.call .ma_engine_config_init
  let result := a.ma_engine_init
  let s := s.call (.ma_engine_init result)
  if result ≠ MA_SUCCESS then
    let s := s.call (.fprintf_init_failed result)
    (as_boolean boolean_is_bool (-1), s)
  else
    (as_boolean boolean_is_bool 1, { s with sound_initialized := true })

/-- The function `I_MINI_AUDIO_ShutdownSound` (source lines 59-69). -/
def I_MINI_AUDIO_ShutdownSound (s : State) : State :=
  if !s.sound_initialized then s
  else { s.call .ma_engine_uninit with sound_initialized := false }

/-- Modelled from the spec: the sound descriptor `sfxinfo_t` of i_sound.h (not
under src/): "name, optional link to another descriptor". -/
inductive sfxinfo_t where
  | mk (name : List Nat) (link : Option sfxinfo_t)

/-- The field `sfx->name`. -/
def sfxinfo_t.name : sfxinfo_t → List Nat
  | .mk n _ => n

/-- The field `sfx->link` (`none` is `NULL`). -/
def sfxinfo_t.link : sfxinfo_t → Option sfxinfo_t
  | .mk _ l => l

/-- Write the bytes `w` at the start of `buf`; `none` when they do not fit
(a write past the end of the object). -/
def poke (buf w : List Nat) : Option (List Nat) :=
  if w.length ≤ buf.length then some (store buf w) else none

/-- Modelled from the spec: `M_snprintf` of m_misc.c (not under src/), the
engine's bounded formatter: nothing is written when `buf_len < 1`, otherwise at
most `buf_len - 1` bytes of the formatted text followed by a NUL. -/
def M_snprintf (buf : List Nat) (buf_len : Nat) (formatted : List Nat) :
    Option (List Nat) :=
  if buf_len < 1 then some buf
  else poke buf (formatted.take (buf_len - 1) ++ [0])

/-- Modelled from the spec: `M_StringCopy` of m_misc.c (not under src/), the
engine's bounded string copy: nothing is written when `dest_size < 1`, otherwise
`dest[dest_size - 1] = 0` and `strncpy(dest, src, dest_size - 1)`, which pads
with NUL bytes. `src` is the C string that is copied. -/
def M_StringCopy (dest : List Nat) (src : List Nat) (dest_size : Nat) :
    Option (List Nat) :=
  if dest_size ≥ 1 then
    poke dest (src.take (dest_size - 1)
      ++ List.replicate (dest_size - 1 - src.length) 0 ++ [0])
  else some dest

/-- The function `GetSfxLumpName` (source lines 71-88): the new content of
`buf`. `DEH_String` (deh_str.c, not under src/) maps the memory of a string to
the memory of its replacement. `none` when a string read or a write leaves its object. -/
def GetSfxLumpName (s : State) (DEH_String : List Nat → List Nat)
    (sfx : sfxinfo_t) (buf : List Nat) (buf_len : Nat) : Option (List Nat) :=
  let sfx := match sfx.link with
    | some l => l
    | none => sfx
  match cstr (DEH_String sfx.name) with
  | none => none
  | some nm =>
    if s.use_sfx_prefix then M_snprintf buf buf_len (bytes "ds" ++ nm)
    else M_StringCopy buf nm buf_len

/-- The function `I_MINI_AUDIO_GetSfxLumpNum` (source lines 93-98); `junk` gives
the initial content of the local `char namebuf[9]`, `W_GetNumForName`
(w_wad.c, not under src/) is applied to the C string left in it. -/
def I_MINI_AUDIO_GetSfxLumpNum (s : State) (DEH_String : List Nat → List Nat)
    (W_GetNumForName : List Nat → Int) (junk : Nat → Nat) (sfx : sfxinfo_t) :
    Option Int :=
  match GetSfxLumpName s DEH_String sfx ((List.range 9).map junk) 9 with
  | none => none
  | some namebuf => (cstr namebuf).map W_GetNumForName

/-- The function `I_MINI_AUDIO_StartSound` (source lines 119-126): the returned
value and the new state; `none` when `sfxinfo->name` is not a C string. -/
def I_MINI_AUDIO_StartSound (s : State) (sfxinfo : sfxinfo_t)
    (channel vol sep : Int) : Option (Int × State) :=
  match cstr sfxinfo.name with
  | none => none
  | some nm =>
    let name := snprintf 64 (bytes "sound/ds" ++ nm ++ bytes ".wav")
    let s := s.call (.ma_engine_play_sound name)
    some (0, s)

/-! ## Reading the log -/

/-- The paths passed to `ma_sound_init_from_file`, oldest first. -/
def opened : List Call → List (List Nat)
  | [] => []
  | .ma_sound_init_from_file path _ :: cs => path :: opened cs
  | _ :: cs => opened cs

/-- The paths passed to `ma_engine_play_sound`, oldest first. -/
def played : List Call → List (List Nat)
  | [] => []
  | .ma_engine_play_sound path :: cs => path :: played cs
  | _ :: cs => played cs

/-- The number of sound objects that the log leaves initialised and not yet
released: each successful `ma_sound_init_from_file` adds one, each
`ma_sound_uninit` removes one. -/
def live (cs : List Call) : Nat :=
  cs.foldl
    (fun n c =>
      match c with
      | .ma_sound_init_from_file _ result => if result = MA_SUCCESS then n + 1 else n
      | .ma_sound_uninit => n - 1
      | _ => n)
    0

/-- The linear gains passed to `ma_volume_linear_to_db`, oldest first. -/
def gains : List Call → List ℚ
  | [] => []
  | .ma_volume_linear_to_db gain _ :: cs => gain :: gains cs
  | _ :: cs => gains cs

/-- The sound-effect path as the specification words it: the lump name is
resolved as in `GetSfxLumpName` (link followed one level, `ds` prefixed in
prefix mode) and placed in `sound/ds<name>.wav`. Kept apart from
`I_MINI_AUDIO_StartSound`, with which it is compared. -/
def StartSound_path_spec (s : State) (DEH_String : List Nat → List Nat)
    (sfx : sfxinfo_t) : Option (List Nat) :=
  ((GetSfxLumpName s DEH_String sfx (List.replicate 64 0) 64).bind cstr).map
    (fun resolved => bytes "sound/ds" ++ resolved ++ bytes ".wav")

/-- The descriptor `chgun`, linked to the descriptor `pistol`. -/
def sfx_chgun : sfxinfo_t :=
  .mk (bytes "chgun" ++ [0]) (some (.mk (bytes "pistol" ++ [0]) none))

/-! ## Concrete inputs used below -/

/-- Answers of a library on which every call succeeds and the music object is
reported as playing; the dB conversion is left as the identity. -/
def Answers.ok : Answers :=
  { ma_engine_init := 0, ma_sound_is_playing := true,
    ma_sound_init_from_file := 0, ma_sound_start := 0,
    ma_volume_linear_to_db := id }

/-- A Playing state: the initial state with `gma_music_playing` set. -/
def State.playing : State :=
  { State.initial with gma_music_playing := true }

/-! ## Lemmas -/

theorem opened_append (l l' : List Call) : opened (l ++ l') = opened l ++ opened l' := by
  induction l with
  | nil => rfl
  | cons c l ih => cases c <;> simp [opened, ih]

theorem played_append (l l' : List Call) : played (l ++ l') = played l ++ played l' := by
  induction l with
  | nil => rfl
  | cons c l ih => cases c <;> simp [opened, played, ih]

theorem StopSong_of_playing (s : State) (a : Answers) (h : s.gma_music_playing = true) :
    I_MINI_AUDIO_StopSong s a =
      { s with
        gma_music_playing := false
        calls := s.calls ++ [Call.ma_sound_is_playing a.ma_sound_is_playing]
          ++ (if a.ma_sound_is_playing then [Call.ma_sound_stop] else [])
          ++ [Call.ma_sound_uninit] } := by
  unfold I_MINI_AUDIO_StopSong
  cases hp : a.ma_sound_is_playing <;> simp [h, State.call]

theorem StopSong_of_idle (s : State) (a : Answers) (h : s.gma_music_playing = false) :
    I_MINI_AUDIO_StopSong s a = s := by
  simp [I_MINI_AUDIO_StopSong, h]

theorem StopSong_flag (s : State) (a : Answers) :
    (I_MINI_AUDIO_StopSong s a).gma_music_playing = false := by
  cases h : s.gma_music_playing
  · rw [StopSong_of_idle s a h]; exact h
  · rw [StopSong_of_playing s a h]

theorem StopSong_opened (s : State) (a : Answers) :
    opened (I_MINI_AUDIO_StopSong s a).calls = opened s.calls := by
  cases h : s.gma_music_playing
  · rw [StopSong_of_idle s a h]
  · rw [StopSong_of_playing s a h]
    cases a.ma_sound_is_playing <;> simp [opened_append, opened]

/-! ## Music state machine -/

/-- C9: `I_MINI_AUDIO_StopSong` always ends Idle; from Playing it logs the
`ma_sound_is_playing` query, `ma_sound_stop` exactly when the answer is true,
then one `ma_sound_uninit`, and clears the flag; from Idle it changes nothing
and calls nothing; a second stop right after adds nothing. -/
theorem StopSong_idle_and_idempotent (s : State) (a a' : Answers) :
    (I_MINI_AUDIO_StopSong s a).gma_music_playing = false
    ∧ (s.gma_music_playing = true →
        I_MINI_AUDIO_StopSong s a =
          { s with
            gma_music_playing := false
            calls := s.calls ++ [Call.ma_sound_is_playing a.ma_sound_is_playing]
              ++ (if a.ma_sound_is_playing then [Call.ma_sound_stop] else [])
              ++ [Call.ma_sound_uninit] })
    ∧ (s.gma_music_playing = false → I_MINI_AUDIO_StopSong s a = s)
    ∧ I_MINI_AUDIO_StopSong (I_MINI_AUDIO_StopSong s a) a' = I_MINI_AUDIO_StopSong s a :=
  ⟨StopSong_flag s a, StopSong_of_playing s a, StopSong_of_idle s a,
    StopSong_of_idle _ a' (StopSong_flag s a)⟩

/-- C9 at concrete inputs: stopping the playing state logs query, stop and
release; stopping the initial (idle) state returns it unchanged. -/
theorem StopSong_idle_and_idempotent_witness :
    (I_MINI_AUDIO_StopSong State.playing Answers.ok).calls
        = [Call.ma_sound_is_playing true, Call.ma_sound_stop, Call.ma_sound_uninit]
    ∧ I_MINI_AUDIO_StopSong State.initial Answers.ok = State.initial
    ∧ I_MINI_AUDIO_StopSong (I_MINI_AUDIO_StopSong State.playing Answers.ok) Answers.ok
        = I_MINI_AUDIO_StopSong State.playing Answers.ok :=
  ⟨by rw [(StopSong_idle_and_idempotent State.playing Answers.ok Answers.ok).2.1 rfl]; rfl,
    (StopSong_idle_and_idempotent State.initial Answers.ok Answers.ok).2.2.1 rfl,
    (StopSong_idle_and_idempotent State.playing Answers.ok Answers.ok).2.2.2⟩

/-- C5: in the Idle state `I_MINI_AUDIO_SetMusicVolume` returns the state as it
was, log of library calls included, for every volume. -/
theorem SetMusicVolume_idle (s : State) (a : Answers) (volume : Int)
    (h : s.gma_music_playing = false) :
    I_MINI_AUDIO_SetMusicVolume s a volume = s
    ∧ (I_MINI_AUDIO_SetMusicVolume s a volume).calls = s.calls := by
  have e : I_MINI_AUDIO_SetMusicVolume s a volume = s := by
    simp [I_MINI_AUDIO_SetMusicVolume, h]
  exact ⟨e, by rw [e]⟩

/-- C5 at the initial state with volume 100. -/
theorem SetMusicVolume_idle_witness :
    State.initial.gma_music_playing = false
    ∧ I_MINI_AUDIO_SetMusicVolume State.initial Answers.ok 100 = State.initial
    ∧ (I_MINI_AUDIO_SetMusicVolume State.initial Answers.ok 100).calls = [] :=
  ⟨rfl, SetMusicVolume_idle State.initial Answers.ok 100 rfl⟩

/-- C3: for a handle that is a C string, `I_MINI_AUDIO_PlaySong` returns, and
afterwards `I_MINI_AUDIO_MusicIsPlaying` is true exactly when both
`ma_sound_init_from_file` and `ma_sound_start` answered `MA_SUCCESS`; after a
failed initialisation the state is Idle and the open attempt is the last call
logged (no `ma_sound_set_looping`, no `ma_sound_start`). -/
theorem PlaySong_playing_iff (s : State) (a : Answers) (handle h : List Nat)
    (looping : Bool) (hh : cstr handle = some h) :
    ∃ s', I_MINI_AUDIO_PlaySong s a handle looping = some s'
      ∧ (I_MINI_AUDIO_MusicIsPlaying s' = true ↔
          (a.ma_sound_init_from_file = MA_SUCCESS ∧ a.ma_sound_start = MA_SUCCESS))
      ∧ (a.ma_sound_init_from_file ≠ MA_SUCCESS →
          I_MINI_AUDIO_MusicIsPlaying s' = false
          ∧ s'.calls = (I_MINI_AUDIO_StopSong s a).calls ++
              [Call.ma_sound_init_from_file
                (snprintf 64 (bytes "sound/" ++ h ++ bytes ".mp3"))
                a.ma_sound_init_from_file]) := by
  have hf := StopSong_flag s a
  unfold I_MINI_AUDIO_PlaySong
  simp only [hh]
  by_cases hi : a.ma_sound_init_from_file = MA_SUCCESS
  · by_cases hs : a.ma_sound_start = MA_SUCCESS
    · simp [hi, hs, I_MINI_AUDIO_MusicIsPlaying]
    · simp [hi, hs, I_MINI_AUDIO_MusicIsPlaying, State.call, hf]
  · simp [hi, I_MINI_AUDIO_MusicIsPlaying, State.call, hf]

/-- C3 at a concrete input: a song is playing, the file of the next one cannot
be opened (`MA_ERROR = -1`); the state is Idle afterwards. -/
theorem PlaySong_playing_iff_witness :
    cstr (bytes "d_e1m1" ++ [0]) = some (bytes "d_e1m1")
    ∧ (I_MINI_AUDIO_PlaySong State.playing
          { Answers.ok with ma_sound_init_from_file := -1 } (bytes "d_e1m1" ++ [0]) true).map
        I_MINI_AUDIO_MusicIsPlaying = some false := by
  refine ⟨by decide, ?_⟩
  obtain ⟨s', h1, _, h3⟩ := PlaySong_playing_iff State.playing
    { Answers.ok with ma_sound_init_from_file := -1 } (bytes "d_e1m1" ++ [0])
    (bytes "d_e1m1") true (by decide)
  rw [h1, Option.map_some', (h3 (by decide)).1]

/-! ## Music volume -/

theorem gains_append (l l' : List Call) : gains (l ++ l') = gains l ++ gains l' := by
  induction l with
  | nil => rfl
  | cons c l ih => cases c <;> simp [gains, ih]

theorem gains_SetMusicVolume (s : State) (a : Answers) (volume : Int)
    (h1 : s.gma_music_playing = true) (h2 : a.ma_sound_is_playing = true) :
    gains (I_MINI_AUDIO_SetMusicVolume s a volume).calls
      = gains s.calls ++ [1 - (volume : ℚ) / 127] := by
  simp [I_MINI_AUDIO_SetMusicVolume, h1, h2, State.call, gains_append, gains]

/-- C4, as stated, fails: with music playing, volume 0 hands the gain 1 (not 0)
to the conversion and volume 127 hands the gain 0 (not 1). -/
theorem SetMusicVolume_gain_inverted :
    gains (I_MINI_AUDIO_SetMusicVolume State.playing Answers.ok 0).calls = [1]
    ∧ gains (I_MINI_AUDIO_SetMusicVolume State.playing Answers.ok 127).calls = [0]
    ∧ ¬ (gains (I_MINI_AUDIO_SetMusicVolume State.playing Answers.ok 0).calls = [0])
    ∧ ¬ (gains (I_MINI_AUDIO_SetMusicVolume State.playing Answers.ok 127).calls = [1]) := by
  have e0 := gains_SetMusicVolume State.playing Answers.ok 0 rfl rfl
  have e1 := gains_SetMusicVolume State.playing Answers.ok 127 rfl rfl
  rw [e0, e1]
  simp [State.playing, State.initial, gains]

/-- C4, amended: while music is playing and the library reports the object as
playing, volume 0 hands the linear gain 1 (0 dB, no attenuation) to the
linear-to-dB conversion and volume 127 hands the gain 0 (silence); over exact
rationals the gain `1 - v / 127` is a non-increasing function of `v` on 0..127,
and the converted value is what `ma_sound_set_volume` receives. -/
theorem SetMusicVolume_gain (s : State) (a : Answers)
    (h1 : s.gma_music_playing = true) (h2 : a.ma_sound_is_playing = true) :
    gains (I_MINI_AUDIO_SetMusicVolume s a 0).calls = gains s.calls ++ [1]
    ∧ gains (I_MINI_AUDIO_SetMusicVolume s a 127).calls = gains s.calls ++ [0]
    ∧ (∀ v w : Int, 0 ≤ v → v ≤ w → w ≤ 127 →
        ∃ gv gw : ℚ,
          gains (I_MINI_AUDIO_SetMusicVolume s a v).calls = gains s.calls ++ [gv]
          ∧ gains (I_MINI_AUDIO_SetMusicVolume s a w).calls = gains s.calls ++ [gw]
          ∧ gw ≤ gv)
    ∧ (∀ v : Int, (I_MINI_AUDIO_SetMusicVolume s a v).calls = s.calls ++
        [Call.ma_sound_is_playing true,
         Call.ma_volume_linear_to_db (1 - (v : ℚ) / 127)
           (a.ma_volume_linear_to_db (1 - (v : ℚ) / 127)),
         Call.ma_sound_set_volume (a.ma_volume_linear_to_db (1 - (v : ℚ) / 127))]) := by
  refine ⟨?_, ?_, ?_, ?_⟩
  · rw [gains_SetMusicVolume s a 0 h1 h2]; norm_num
  · rw [gains_SetMusicVolume s a 127 h1 h2]; norm_num
  · intro v w _ hvw _
    refine ⟨_, _, gains_SetMusicVolume s a v h1 h2, gains_SetMusicVolume s a w h1 h2, ?_⟩
    have : (v : ℚ) ≤ (w : ℚ) := by exact_mod_cast hvw
    linarith
  · intro v
    simp [I_MINI_AUDIO_SetMusicVolume, h1, h2, State.call]

/-- C4 amended, at the state right after a song was started. -/
theorem SetMusicVolume_gain_witness :
    State.playing.gma_music_playing = true ∧ Answers.ok.ma_sound_is_playing = true
    ∧ gains (I_MINI_AUDIO_SetMusicVolume State.playing Answers.ok 0).calls
        = gains State.playing.calls ++ [1]
    ∧ gains (I_MINI_AUDIO_SetMusicVolume State.playing Answers.ok 127).calls
        = gains State.playing.calls ++ [0] :=
  ⟨rfl, rfl, (SetMusicVolume_gain State.playing Answers.ok rfl rfl).1,
    (SetMusicVolume_gain State.playing Answers.ok rfl rfl).2.1⟩

/-! ## Defects shown at concrete inputs -/

/-- C8: when `ma_engine_init` fails (`MA_ERROR = -1`), `I_MINI_AUDIO_InitSound`
returns the value of `return -1;`, which a caller testing it as a boolean sees
as true under either typedef of `boolean` (-1 with the enum, 1 with C `bool`);
`sound_initialized` stays false and the diagnostic is written once. -/
theorem InitSound_failure_tests_true :
    I_MINI_AUDIO_InitSound false State.initial
        { Answers.ok with ma_engine_init := -1 } true
      = (-1, { State.initial with
          use_sfx_prefix := true
          calls := [Call.ma_engine_config_init, Call.ma_engine_init (-1),
            Call.fprintf_init_failed (-1)] })
    ∧ truthy (I_MINI_AUDIO_InitSound false State.initial
        { Answers.ok with ma_engine_init := -1 } true).1 = true
    ∧ I_MINI_AUDIO_InitSound true State.initial
        { Answers.ok with ma_engine_init := -1 } true
      = (1, { State.initial with
          use_sfx_prefix := true
          calls := [Call.ma_engine_config_init, Call.ma_engine_init (-1),
            Call.fprintf_init_failed (-1)] })
    ∧ truthy (I_MINI_AUDIO_InitSound true State.initial
        { Answers.ok with ma_engine_init := -1 } true).1 = true
    ∧ (I_MINI_AUDIO_InitSound false State.initial
        { Answers.ok with ma_engine_init := -1 } true).2.sound_initialized = false
    ∧ I_MINI_AUDIO_InitSound false State.initial Answers.ok true
      = (1, { State.initial with
          use_sfx_prefix := true
          sound_initialized := true
          calls := [Call.ma_engine_config_init, Call.ma_engine_init 0] }) := by
  decide

/-- C2: from the initial state, a first `I_MINI_AUDIO_PlaySong` whose open
succeeds and whose start fails, followed by a second one that succeeds, logs two
successful `ma_sound_init_from_file` with no `ma_sound_stop` or
`ma_sound_uninit` in between: two objects are initialised and not released. -/
theorem PlaySong_twice_leaks :
    ((I_MINI_AUDIO_PlaySong State.initial { Answers.ok with ma_sound_start := -1 }
        (bytes "d_e1m1" ++ [0]) true).bind
      (fun s => I_MINI_AUDIO_PlaySong s Answers.ok (bytes "d_e1m2" ++ [0]) true)).map
      (fun s => (s.gma_music_playing, live s.calls, s.calls))
    = some (true, 2,
        [Call.ma_sound_init_from_file (bytes "sound/d_e1m1.mp3") 0,
         Call.ma_sound_set_looping true,
         Call.ma_sound_start (-1),
         Call.fprintf_could_not_play (bytes "sound/d_e1m1.mp3") (-1),
         Call.ma_sound_init_from_file (bytes "sound/d_e1m2.mp3") 0,
         Call.ma_sound_set_looping true,
         Call.ma_sound_start 0]) := by
  decide

/-! ## C strings and paths -/

theorem strlen_append (s r : List Nat) (h : ∀ b ∈ s, b ≠ 0) :
    strlen (s ++ 0 :: r) = some s.length := by
  induction s with
  | nil => simp [strlen]
  | cons b s ih =>
    have hb : b ≠ 0 := h b (List.mem_cons_self b s)
    have hs : ∀ c ∈ s, c ≠ 0 := fun c hc => h c (List.mem_cons_of_mem b hc)
    simp [strlen, hb, ih hs]

theorem cstr_append (s r : List Nat) (h : ∀ b ∈ s, b ≠ 0) :
    cstr (s ++ 0 :: r) = some s := by
  simp [cstr, strlen_append s r h]

theorem loop_copy (s r dst : List Nat) (h : ∀ b ∈ s, b ≠ 0)
    (hd : dst.length = s.length + 1) :
    ma_strcpy_s.loop (s.length + 1) (s ++ 0 :: r) dst = some (true, s ++ [0]) := by
  induction s generalizing dst with
  | nil =>
    match dst, hd with
    | [_], _ => simp [ma_strcpy_s.loop]
  | cons b s ih =>
    have hb : b ≠ 0 := h b (List.mem_cons_self b s)
    have hs : ∀ c ∈ s, c ≠ 0 := fun c hc => h c (List.mem_cons_of_mem b hc)
    match dst, hd with
    | d :: dst, hd =>
      have hd' : dst.length = s.length + 1 := by simpa using hd
      simp [ma_strcpy_s.loop, hb, ih dst hs hd']

theorem RegisterSong_copy (junk : Nat → Nat) (name rest : List Nat) (len : Int)
    (h : ∀ b ∈ name, b ≠ 0) :
    I_MINI_AUDIO_RegisterSong junk (name ++ 0 :: rest) len = some (name ++ [0]) := by
  have hl : (malloc junk (name.length + 1)).length = name.length + 1 := by
    simp [malloc]
  simp [I_MINI_AUDIO_RegisterSong, strlen_append name rest h, ma_strcpy_s,
    loop_copy name rest _ h hl]

theorem PlaySong_opened (s : State) (a : Answers) (handle h : List Nat)
    (looping : Bool) (hh : cstr handle = some h) :
    (I_MINI_AUDIO_PlaySong s a handle looping).map (fun s' => opened s'.calls)
      = some (opened s.calls ++ [(bytes "sound/" ++ h ++ bytes ".mp3").take 63]) := by
  have ho := StopSong_opened s a
  unfold I_MINI_AUDIO_PlaySong
  simp only [hh]
  by_cases hi : a.ma_sound_init_from_file = MA_SUCCESS
  · by_cases hs : a.ma_sound_start = MA_SUCCESS
    · simp [hi, hs, State.call, opened_append, opened, ho, snprintf]
    · simp [hi, hs, State.call, opened_append, opened, ho, snprintf]
  · simp [hi, State.call, opened_append, opened, ho, snprintf]

theorem StartSound_played (s : State) (sfxinfo : sfxinfo_t) (nm : List Nat)
    (channel vol sep : Int) (hn : cstr sfxinfo.name = some nm) :
    I_MINI_AUDIO_StartSound s sfxinfo channel vol sep
      = some (0, s.call (Call.ma_engine_play_sound
          ((bytes "sound/ds" ++ nm ++ bytes ".wav").take 63))) := by
  simp [I_MINI_AUDIO_StartSound, hn, snprintf]

theorem mp3_length (h : List Nat) :
    (bytes "sound/" ++ h ++ bytes ".mp3").length = h.length + 10 := by
  have e1 : (bytes "sound/").length = 6 := by decide
  have e2 : (bytes ".mp3").length = 4 := by decide
  simp only [List.length_append, e1, e2]; omega

theorem wav_length (h : List Nat) :
    (bytes "sound/ds" ++ h ++ bytes ".wav").length = h.length + 12 := by
  have e1 : (bytes "sound/ds").length = 8 := by decide
  have e2 : (bytes ".wav").length = 4 := by decide
  simp only [List.length_append, e1, e2]; omega

theorem take_eq_self_iff_le (l : List Nat) (n : Nat) : l.take n = l ↔ l.length ≤ n := by
  constructor
  · intro h
    have := congrArg List.length h
    simp at this
    exact this
  · exact List.take_of_length_le

theorem cstr_eq_some (p s : List Nat) (h : cstr p = some s) :
    ∃ r, p = s ++ 0 :: r ∧ ∀ b ∈ s, b ≠ 0 := by
  induction p generalizing s with
  | nil => simp [cstr, strlen] at h
  | cons b p ih =>
    by_cases hb : b = 0
    · subst hb
      simp [cstr, strlen] at h
      subst h
      exact ⟨p, rfl, by simp⟩
    · cases hp : strlen p with
      | none => simp [cstr, strlen, hb, hp] at h
      | some n =>
        simp [cstr, strlen, hb, hp] at h
        obtain ⟨r, hr, hz⟩ := ih (p.take n) (by simp [cstr, hp])
        subst h
        refine ⟨r, by rw [List.cons_append, ← hr], ?_⟩
        intro c hc
        rcases List.mem_cons.mp hc with rfl | hc
        · exact hb
        · exact hz c hc

theorem cstr_append_head (s t : List Nat) (h : ∀ b ∈ s, b ≠ 0)
    (ht : t.head? = some 0) : cstr (s ++ t) = some s := by
  match t, ht with
  | b :: r, ht =>
    simp at ht
    subst ht
    exact cstr_append s r h

theorem bytes_ds_nonzero : ∀ b ∈ bytes "ds", b ≠ 0 := by decide

/-- C1: for every memory block holding a NUL-terminated name of at most 53
bytes and every `len`, `I_MINI_AUDIO_RegisterSong` returns a handle (the name
and its NUL) whose C string is the name, and `I_MINI_AUDIO_PlaySong` with that
handle passes exactly one path to `ma_sound_init_from_file`, namely
`"sound/" ++ name ++ ".mp3"`. -/
theorem RegisterSong_then_PlaySong (junk : Nat → Nat) (data name : List Nat)
    (len : Int) (s : State) (a : Answers) (looping : Bool)
    (hd : cstr data = some name) (hlen : name.length ≤ 53) :
    I_MINI_AUDIO_RegisterSong junk data len = some (name ++ [0])
    ∧ cstr (name ++ [0]) = some name
    ∧ (I_MINI_AUDIO_PlaySong s a (name ++ [0]) looping).map (fun s' => opened s'.calls)
        = some (opened s.calls ++ [bytes "sound/" ++ name ++ bytes ".mp3"]) := by
  obtain ⟨r, rfl, hz⟩ := cstr_eq_some data name hd
  have hc : cstr (name ++ [0]) = some name := cstr_append name [] hz
  refine ⟨RegisterSong_copy junk name r len hz, hc, ?_⟩
  rw [PlaySong_opened s a _ name looping hc]
  have hl := mp3_length name
  rw [List.take_of_length_le (by omega)]

/-- C1 for the name `"d_e1m1"`, followed in memory by other bytes, with
`len = 12345`: the path opened is `"sound/d_e1m1.mp3"`. -/
theorem RegisterSong_then_PlaySong_witness :
    cstr (bytes "d_e1m1" ++ [0, 77, 85, 83]) = some (bytes "d_e1m1")
    ∧ (bytes "d_e1m1").length ≤ 53
    ∧ I_MINI_AUDIO_RegisterSong (fun i => i + 1) (bytes "d_e1m1" ++ [0, 77, 85, 83]) 12345
        = some (bytes "d_e1m1" ++ [0])
    ∧ cstr (bytes "d_e1m1" ++ [0]) = some (bytes "d_e1m1")
    ∧ (I_MINI_AUDIO_PlaySong State.initial Answers.ok (bytes "d_e1m1" ++ [0]) true).map
        (fun s' => opened s'.calls) = some [bytes "sound/d_e1m1.mp3"] := by
  have key := RegisterSong_then_PlaySong (fun i => i + 1)
    (bytes "d_e1m1" ++ [0, 77, 85, 83]) (bytes "d_e1m1") 12345 State.initial Answers.ok true
    (by decide) (by decide)
  refine ⟨by decide, by decide, key.1, key.2.1, ?_⟩
  rw [key.2.2]
  decide

theorem take_63_split (pre h ext : List Nat) (k : Nat) (hp : pre.length + k = 59) :
    (pre ++ h ++ ext).take 63 = (pre ++ h).take 63 ++ ext.take (k + 4 - h.length) := by
  rw [List.take_append_eq_append_take]
  congr 2
  simp only [List.length_append]
  omega

/-- C10: the path handed to the library is the first `min n 63` bytes of the
formatted path of length `n`. `I_MINI_AUDIO_PlaySong` passes
`"sound/" ++ name ++ ".mp3"` whole exactly when the name has at most 53 bytes,
`I_MINI_AUDIO_StartSound` passes `"sound/ds" ++ name ++ ".wav"` whole exactly
when the name has at most 51 bytes; a longer name keeps fewer than 4 bytes of
the extension. -/
theorem paths_truncated_to_63 (s : State) (a : Answers) (handle h : List Nat)
    (looping : Bool) (sfxinfo : sfxinfo_t) (nm : List Nat) (channel vol sep : Int)
    (hh : cstr handle = some h) (hn : cstr sfxinfo.name = some nm) :
    ((I_MINI_AUDIO_PlaySong s a handle looping).map (fun s' => opened s'.calls)
        = some (opened s.calls ++
            [(bytes "sound/" ++ h ++ bytes ".mp3").take
              (min (bytes "sound/" ++ h ++ bytes ".mp3").length 63)])
      ∧ ((bytes "sound/" ++ h ++ bytes ".mp3").take
            (min (bytes "sound/" ++ h ++ bytes ".mp3").length 63)
          = bytes "sound/" ++ h ++ bytes ".mp3" ↔ h.length ≤ 53)
      ∧ (53 < h.length →
          (bytes "sound/" ++ h ++ bytes ".mp3").take
              (min (bytes "sound/" ++ h ++ bytes ".mp3").length 63)
            = (bytes "sound/" ++ h).take 63 ++ (bytes ".mp3").take (57 - h.length)
          ∧ ((bytes ".mp3").take (57 - h.length)).length < 4))
    ∧ ((I_MINI_AUDIO_StartSound s sfxinfo channel vol sep).map
          (fun r => played r.2.calls)
        = some (played s.calls ++
            [(bytes "sound/ds" ++ nm ++ bytes ".wav").take
              (min (bytes "sound/ds" ++ nm ++ bytes ".wav").length 63)])
      ∧ ((bytes "sound/ds" ++ nm ++ bytes ".wav").take
            (min (bytes "sound/ds" ++ nm ++ bytes ".wav").length 63)
          = bytes "sound/ds" ++ nm ++ bytes ".wav" ↔ nm.length ≤ 51)
      ∧ (51 < nm.length →
          (bytes "sound/ds" ++ nm ++ bytes ".wav").take
              (min (bytes "sound/ds" ++ nm ++ bytes ".wav").length 63)
            = (bytes "sound/ds" ++ nm).take 63 ++ (bytes ".wav").take (55 - nm.length)
          ∧ ((bytes ".wav").take (55 - nm.length)).length < 4)) := by
  have m1 : (bytes "sound/" ++ h ++ bytes ".mp3").take
      (min (bytes "sound/" ++ h ++ bytes ".mp3").length 63)
      = (bytes "sound/" ++ h ++ bytes ".mp3").take 63 := by
    rcases Nat.le_total (bytes "sound/" ++ h ++ bytes ".mp3").length 63 with hle | hle
    · rw [Nat.min_eq_left hle, List.take_of_length_le hle, List.take_of_length_le (le_refl _)]
    · rw [Nat.min_eq_right hle]
  have m2 : (bytes "sound/ds" ++ nm ++ bytes ".wav").take
      (min (bytes "sound/ds" ++ nm ++ bytes ".wav").length 63)
      = (bytes "sound/ds" ++ nm ++ bytes ".wav").take 63 := by
    rcases Nat.le_total (bytes "sound/ds" ++ nm ++ bytes ".wav").length 63 with hle | hle
    · rw [Nat.min_eq_left hle, List.take_of_length_le hle, List.take_of_length_le (le_refl _)]
    · rw [Nat.min_eq_right hle]
  rw [m1, m2]
  have l1 := mp3_length h
  have l2 := wav_length nm
  refine ⟨⟨PlaySong_opened s a handle h looping hh, ?_, ?_⟩, ⟨?_, ?_, ?_⟩⟩
  · rw [take_eq_self_iff_le, l1]; omega
  · intro hlong
    refine ⟨?_, ?_⟩
    · have := take_63_split (bytes "sound/") h (bytes ".mp3") 53 (by decide)
      simpa using this
    · rw [List.length_take]; omega
  · rw [StartSound_played s sfxinfo nm channel vol sep hn]
    simp [State.call, played_append, played]
  · rw [take_eq_self_iff_le, l2]; omega
  · intro hlong
    refine ⟨?_, ?_⟩
    · have := take_63_split (bytes "sound/ds") nm (bytes ".wav") 51 (by decide)
      simpa using this
    · rw [List.length_take]; omega

/-- C10 at a 54-byte music name and a 52-byte sound name: the last byte of the
extension is cut off in both paths. -/
theorem paths_truncated_to_63_witness :
    cstr (List.replicate 54 97 ++ [0]) = some (List.replicate 54 97)
    ∧ cstr (sfxinfo_t.mk (List.replicate 52 97 ++ [0]) none).name
        = some (List.replicate 52 97)
    ∧ (I_MINI_AUDIO_PlaySong State.initial Answers.ok (List.replicate 54 97 ++ [0]) true).map
          (fun s' => opened s'.calls)
        = some [bytes "sound/" ++ List.replicate 54 97 ++ bytes ".mp"]
    ∧ (I_MINI_AUDIO_StartSound State.initial
          (sfxinfo_t.mk (List.replicate 52 97 ++ [0]) none) 1 2 3).map
          (fun r => played r.2.calls)
        = some [bytes "sound/ds" ++ List.replicate 52 97 ++ bytes ".wa"] := by
  have hh : cstr (List.replicate 54 97 ++ [0]) = some (List.replicate 54 97) := by decide
  have hn : cstr (sfxinfo_t.mk (List.replicate 52 97 ++ [0]) none).name
      = some (List.replicate 52 97) := by decide
  have key := paths_truncated_to_63 State.initial Answers.ok (List.replicate 54 97 ++ [0])
    (List.replicate 54 97) true (sfxinfo_t.mk (List.replicate 52 97 ++ [0]) none)
    (List.replicate 52 97) 1 2 3 hh hn
  refine ⟨hh, hn, ?_, ?_⟩
  · rw [key.1.1]; decide
  · rw [key.2.1]; decide

/-! ## Sound effects -/

/-- C7, as stated, fails: for `chgun` linked to `pistol` (no string
replacement), outside prefix mode, the specification's path is
`sound/dspistol.wav` while `I_MINI_AUDIO_StartSound` plays `sound/dschgun.wav`;
in prefix mode the two differ as well. -/
theorem StartSound_ignores_link :
    (I_MINI_AUDIO_StartSound State.initial sfx_chgun 0 127 128).map
        (fun r => (r.1, played r.2.calls))
      = some (0, [bytes "sound/dschgun.wav"])
    ∧ StartSound_path_spec State.initial id sfx_chgun = some (bytes "sound/dspistol.wav")
    ∧ (I_MINI_AUDIO_StartSound State.initial sfx_chgun 0 127 128).map
        (fun r => played r.2.calls)
      ≠ (StartSound_path_spec State.initial id sfx_chgun).map (fun path => [path])
    ∧ (I_MINI_AUDIO_StartSound { State.initial with use_sfx_prefix := true }
          sfx_chgun 0 127 128).map (fun r => played r.2.calls)
      = some [bytes "sound/dschgun.wav"]
    ∧ StartSound_path_spec { State.initial with use_sfx_prefix := true } id sfx_chgun
      = some (bytes "sound/dsdspistol.wav") := by
  decide

/-- C7, amended: for every descriptor (with or without a link) and every prefix
mode, `I_MINI_AUDIO_StartSound` returns 0 and hands one path to
`ma_engine_play_sound`, built from the descriptor's own name: the first 63
bytes of `"sound/ds" ++ name ++ ".wav"`, which is the whole of it when the name
has at most 51 bytes. Neither the link nor the prefix mode enters. -/
theorem StartSound_own_name (s : State) (name nm : List Nat)
    (link : Option sfxinfo_t) (channel vol sep : Int) (hn : cstr name = some nm) :
    I_MINI_AUDIO_StartSound s (sfxinfo_t.mk name link) channel vol sep
      = some (0, s.call (Call.ma_engine_play_sound
          ((bytes "sound/ds" ++ nm ++ bytes ".wav").take 63)))
    ∧ (nm.length ≤ 51 →
        (bytes "sound/ds" ++ nm ++ bytes ".wav").take 63
          = bytes "sound/ds" ++ nm ++ bytes ".wav") := by
  refine ⟨StartSound_played s (sfxinfo_t.mk name link) nm channel vol sep hn, ?_⟩
  intro hlen
  have := wav_length nm
  exact List.take_of_length_le (by omega)

/-- C7 amended, for `chgun` linked to `pistol` in prefix mode. -/
theorem StartSound_own_name_witness :
    cstr (bytes "chgun" ++ [0]) = some (bytes "chgun")
    ∧ (bytes "chgun").length ≤ 51
    ∧ I_MINI_AUDIO_StartSound { State.initial with use_sfx_prefix := true }
        (sfxinfo_t.mk (bytes "chgun" ++ [0]) (some (sfxinfo_t.mk (bytes "pistol" ++ [0]) none)))
        0 127 128
      = some (0, { State.initial with
          use_sfx_prefix := true
          calls := [Call.ma_engine_play_sound (bytes "sound/dschgun.wav")] }) := by
  have key := StartSound_own_name { State.initial with use_sfx_prefix := true }
    (bytes "chgun" ++ [0]) (bytes "chgun")
    (some (sfxinfo_t.mk (bytes "pistol" ++ [0]) none)) 0 127 128 (by decide)
  refine ⟨by decide, by decide, ?_⟩
  rw [key.1]
  decide

theorem M_snprintf_fits (buf f : List Nat) (buf_len : Nat) (hz : ∀ b ∈ f, b ≠ 0)
    (hb : buf_len ≤ buf.length) (hf : f.length < buf_len) :
    ∃ out, M_snprintf buf buf_len f = some out ∧ cstr out = some f := by
  have h1 : ¬ buf_len < 1 := by omega
  have h2 : f.take (buf_len - 1) = f := List.take_of_length_le (by omega)
  have h3 : (f ++ [0]).length ≤ buf.length := by
    simp only [List.length_append, List.length_singleton]; omega
  refine ⟨store buf (f ++ [0]),
    by simp only [M_snprintf, h1, h2, poke, h3, if_true, if_false], ?_⟩
  unfold store
  rw [List.append_assoc]
  exact cstr_append_head f _ hz (by simp)

theorem M_StringCopy_fits (dest f : List Nat) (dest_size : Nat) (hz : ∀ b ∈ f, b ≠ 0)
    (hb : dest_size ≤ dest.length) (hf : f.length < dest_size) :
    ∃ out, M_StringCopy dest f dest_size = some out ∧ cstr out = some f := by
  have h1 : dest_size ≥ 1 := by omega
  have h2 : f.take (dest_size - 1) = f := List.take_of_length_le (by omega)
  have h3 : (f ++ List.replicate (dest_size - 1 - f.length) 0 ++ [0]).length ≤ dest.length := by
    simp only [List.length_append, List.length_singleton, List.length_replicate]; omega
  refine ⟨store dest (f ++ List.replicate (dest_size - 1 - f.length) 0 ++ [0]),
    by simp only [M_StringCopy, h1, h2, poke, h3, if_true], ?_⟩
  unfold store
  rw [List.append_assoc, List.append_assoc]
  refine cstr_append_head f _ hz ?_
  cases dest_size - 1 - f.length <;> simp [List.replicate]

theorem GetSfxLumpName_resolved (s : State) (DEH_String : List Nat → List Nat)
    (sfx target : sfxinfo_t) (nm buf : List Nat) (buf_len : Nat)
    (ht : (match sfx.link with
      | some l => l
      | none => sfx) = target)
    (hn : cstr (DEH_String target.name) = some nm)
    (hb : buf_len ≤ buf.length)
    (hf : (if s.use_sfx_prefix then 2 else 0) + nm.length < buf_len) :
    ∃ out, GetSfxLumpName s DEH_String sfx buf buf_len = some out
      ∧ cstr out = some ((if s.use_sfx_prefix then bytes "ds" else []) ++ nm) := by
  obtain ⟨r, _, hz⟩ := cstr_eq_some _ nm hn
  unfold GetSfxLumpName
  simp only [ht, hn]
  cases hp : s.use_sfx_prefix
  · simp only [hp] at hf
    simp only [Bool.false_eq_true, if_false, List.nil_append]
    exact M_StringCopy_fits buf nm buf_len hz hb (by omega)
  · simp only [hp, if_true] at hf
    simp only [if_true]
    have hl : (bytes "ds").length = 2 := by decide
    refine M_snprintf_fits buf (bytes "ds" ++ nm) buf_len ?_ hb
      (by simp only [List.length_append, hl]; omega)
    intro b hbm
    rcases List.mem_append.mp hbm with h | h
    · exact bytes_ds_nonzero b h
    · exact hz b h

/-- C6: for a descriptor with a non-null link, a linked name whose
`DEH_String` replacement is the C string `nm`, and a buffer of at least
`buf_len` bytes in which the result fits, `GetSfxLumpName` leaves in `buf` the
C string `nm`, preceded by `ds` exactly in prefix mode. The link of the linked
descriptor does not enter the result, and the linked descriptor on its own
(null link) resolves to the same string. -/
theorem GetSfxLumpName_one_hop (s : State) (DEH_String : List Nat → List Nat)
    (name lname : List Nat) (llink : Option sfxinfo_t) (nm buf : List Nat)
    (buf_len : Nat)
    (hn : cstr (DEH_String lname) = some nm)
    (hb : buf_len ≤ buf.length)
    (hf : (if s.use_sfx_prefix then 2 else 0) + nm.length < buf_len) :
    (∃ out,
        GetSfxLumpName s DEH_String (sfxinfo_t.mk name (some (sfxinfo_t.mk lname llink)))
          buf buf_len = some out
        ∧ cstr out = some ((if s.use_sfx_prefix then bytes "ds" else []) ++ nm))
    ∧ GetSfxLumpName s DEH_String (sfxinfo_t.mk name (some (sfxinfo_t.mk lname llink)))
          buf buf_len
        = GetSfxLumpName s DEH_String (sfxinfo_t.mk name (some (sfxinfo_t.mk lname none)))
          buf buf_len
    ∧ (∃ out,
        GetSfxLumpName s DEH_String (sfxinfo_t.mk lname none) buf buf_len = some out
        ∧ cstr out = some ((if s.use_sfx_prefix then bytes "ds" else []) ++ nm)) :=
  ⟨GetSfxLumpName_resolved s DEH_String _ (sfxinfo_t.mk lname llink) nm buf buf_len rfl hn hb hf,
    rfl,
    GetSfxLumpName_resolved s DEH_String _ (sfxinfo_t.mk lname none) nm buf buf_len rfl hn hb hf⟩

/-- C6 for `chgun` linked to `pistol`, the latter linked on to `chgun`, in
prefix mode with a 9-byte buffer: the buffer holds `dspistol`. -/
theorem GetSfxLumpName_one_hop_witness :
    cstr (id (bytes "pistol" ++ [0])) = some (bytes "pistol")
    ∧ 9 ≤ (List.replicate 9 255).length
    ∧ (GetSfxLumpName { State.initial with use_sfx_prefix := true } id
          (sfxinfo_t.mk (bytes "chgun" ++ [0])
            (some (sfxinfo_t.mk (bytes "pistol" ++ [0])
              (some (sfxinfo_t.mk (bytes "chgun" ++ [0]) none)))))
          (List.replicate 9 255) 9).bind cstr
        = some (bytes "dspistol") := by
  refine ⟨by decide, by decide, ?_⟩
  obtain ⟨out, h1, h2⟩ := (GetSfxLumpName_one_hop
    { State.initial with use_sfx_prefix := true } id (bytes "chgun" ++ [0])
    (bytes "pistol" ++ [0]) (some (sfxinfo_t.mk (bytes "chgun" ++ [0]) none))
    (bytes "pistol") (List.replicate 9 255) 9 (by decide) (by decide) (by decide)).1
  rw [h1, Option.some_bind, h2]
  decide

end MiniAudioBridge
